import Mathlib

/-!
Verification of the session/credential lifecycle and asset-preparation
pipeline of the vrc_print_upload repository.

The Go sources are shallowly embedded:
* `internal/auth/auth.go` — cookies, `IsAuthenticated`, `createAuthHeader`,
  `saveCookiesToFile`, `loadCookies`, `NewClient`, `Logout`.
* `internal/client/client.go` — the retry predicate and the bounded retry
  loop of the resilient transport.
* `internal/upload/upload.go` — the dimension behaviour of `resizeImage`
  (the orientation-dependent 1080p target and the 2048 clamp), with the
  dimension formula of `imaging.Resize` taken from the
  disintegration/imaging library it calls.

Go strings are modelled as lists of bytes (`List Nat`, each entry < 256),
`time.Time` values as integers (a zero/absent expiry is `Option.none`),
and file-system / OS outcomes as explicit environment parameters, so that
every function is total and executable.
-/

/-- One entry of Go's `http.Cookie` as used by `internal/auth`: the fields
the program reads (`Name`, `Value`, `Expires`) plus the path/flag fields
persisted in the JSON credential file.  `expires = none` models the zero
`time.Time` (`Expires.IsZero()`); `some e` is an instant on an integer
timeline. -/
structure GoCookie where
  name : String
  value : String
  expires : Option Int
  path : String
  secure : Bool
  httpOnly : Bool
  deriving DecidableEq, Repr

/-- The in-memory cookie map `map[string]*http.Cookie` of `auth.Client`,
represented as an association list from cookie name to cookie.  A Go map
has at most one entry per key; the canonical representative keeps keys
strictly sorted (`cookieMapCanonical`), which is also the key order
`encoding/json` uses when marshalling a map. -/
abbrev CookieMap : Type := List (String × GoCookie)

/-- Go map lookup `c.cookies[name]`. -/
def cookieLookup : CookieMap → String → Option GoCookie
  | [], _ => none
  | (k, v) :: rest, key => if k = key then some v else cookieLookup rest key

/-- Bytes of an ASCII Lean string literal (used to write concrete Go byte
strings readably; all string literals below are ASCII, where UTF-8 bytes
and code points coincide). -/
def asciiBytes (s : String) : List Nat :=
  s.data.map Char.toNat

/-- Lexicographic byte-order on byte strings: Go's `<` on `string`, the
order `encoding/json` sorts map keys in. -/
def bytesLt : List Nat → List Nat → Bool
  | [], [] => false
  | [], _ :: _ => true
  | _ :: _, [] => false
  | a :: as, b :: bs => if a < b then true else if b < a then false else bytesLt as bs

/-- Go string comparison `a < b` on cookie names (all ASCII here). -/
def keyLt (a b : String) : Bool :=
  bytesLt (asciiBytes a) (asciiBytes b)

/-- A cookie map is canonical when its keys are strictly increasing; every
value reachable from a Go map has a (unique) such representative. -/
def cookieMapCanonical (m : CookieMap) : Prop :=
  List.Pairwise (fun a b : String × GoCookie => keyLt a.1 b.1 = true) m

instance (m : CookieMap) : Decidable (cookieMapCanonical m) := by
  unfold cookieMapCanonical
  infer_instance

/-- `auth.Client.IsAuthenticated` (auth.go lines 141-152): look up the
`auth` cookie; absent or empty value gives `false`; a present, non-zero
expiry strictly before `now` (`Expires.Before(time.Now())`) gives `false`;
everything else gives `true`. -/
def isAuthenticated (m : CookieMap) (now : Int) : Bool :=
  match cookieLookup m "auth" with
  | none => false
  | some c =>
    if c.value = "" then false
    else
      match c.expires with
      | none => true
      | some e => if e < now then false else true

/-- The validity predicate in the words of the claim: `auth` cookie present
with non-empty value and expiry absent or *strictly in the future*
(`now < e`).  Spec-side definition, kept separate from `isAuthenticated`
to compare the two. -/
def isAuthenticatedStrictSpec (m : CookieMap) (now : Int) : Bool :=
  match cookieLookup m "auth" with
  | none => false
  | some c =>
    if c.value = "" then false
    else
      match c.expires with
      | none => true
      | some e => if now < e then true else false

/-- Go's `url.QueryEscape` byte classification: bytes left unescaped are
exactly the RFC 3986 unreserved set `[A-Za-z0-9-_.~]`. -/
def isUnescapedByte (c : Nat) : Bool :=
  (65 ≤ c && c ≤ 90) || (97 ≤ c && c ≤ 122) || (48 ≤ c && c ≤ 57) ||
    c == 45 || c == 95 || c == 46 || c == 126

/-- Upper-case hexadecimal digit byte for a nibble, as in Go's
`net/url` escape table `"0123456789ABCDEF"`. -/
def hexUpperDigit (n : Nat) : Nat :=
  if n < 10 then 48 + n else 55 + n

/-- Escape one byte the way `url.QueryEscape` does: unreserved bytes kept,
space (0x20) becomes `+` (0x2B), every other byte becomes `%XX` with
upper-case hex. -/
def queryEscapeByte (c : Nat) : List Nat :=
  if isUnescapedByte c then [c]
  else if c == 32 then [43]
  else [37, hexUpperDigit (c / 16), hexUpperDigit (c % 16)]

/-- Go's `url.QueryEscape` over a byte string. -/
def queryEscape (s : List Nat) : List Nat :=
  (s.map queryEscapeByte).flatten

/-- The character byte at index `n` of the standard base64 alphabet
`A-Z a-z 0-9 + /` of `encoding/base64.StdEncoding`. -/
def base64AlphabetByte (n : Nat) : Nat :=
  if n < 26 then 65 + n
  else if n < 52 then 97 + (n - 26)
  else if n < 62 then 48 + (n - 52)
  else if n = 62 then 43
  else 47

/-- `base64.StdEncoding.EncodeToString` over bytes: groups of three bytes
become four alphabet bytes; a trailing group of one or two bytes is padded
with `=` (0x3D). -/
def base64Encode : List Nat → List Nat
  | [] => []
  | [a] => [base64AlphabetByte (a / 4), base64AlphabetByte (a % 4 * 16), 61, 61]
  | [a, b] => [base64AlphabetByte (a / 4), base64AlphabetByte (a % 4 * 16 + b / 16),
      base64AlphabetByte (b % 16 * 4), 61]
  | a :: b :: c :: rest =>
      base64AlphabetByte (a / 4) :: base64AlphabetByte (a % 4 * 16 + b / 16) ::
      base64AlphabetByte (b % 16 * 4 + c / 64) :: base64AlphabetByte (c % 64) ::
      base64Encode rest

/-- `auth.Client.createAuthHeader` (auth.go lines 185-191): percent-escape
username and password individually with `url.QueryEscape`, join with `:`
(byte 58), base64-encode, and prefix `"Basic "`. -/
def createAuthHeader (username password : List Nat) : List Nat :=
  asciiBytes "Basic " ++
    base64Encode (queryEscape username ++ 58 :: queryEscape password)

/-- Content of the credential file `cookies.json`: either a zero-length
file (what `os.Create` leaves before any write; not valid JSON, so
decoding it fails) or a well-formed JSON object, represented structurally
as its ordered name/cookie pairs. -/
inductive FileContent where
  | empty : FileContent
  | encoded : List (String × GoCookie) → FileContent
  deriving DecidableEq

/-- Outcome of `os.Open` on the credential file path, as distinguished by
`loadCookies`: the file is missing (`os.IsNotExist`), it exists but cannot
be opened/read, or it was read with the given content. -/
inductive FsRead where
  | missing : FsRead
  | openError : FsRead
  | content : FileContent → FsRead
  deriving DecidableEq

/-- Errors `loadCookies` can return. -/
inductive LoadError where
  | ioError : LoadError
  | decodeError : LoadError
  deriving DecidableEq

/-- Errors `saveCookiesToFile` can return, by failing step. -/
inductive SaveError where
  | createError : SaveError
  | chmodError : SaveError
  deriving DecidableEq

/-- Error of `os.Remove` in `Logout` that is not `os.IsNotExist`. -/
inductive RemoveError where
  | ioError : RemoveError
  deriving DecidableEq

/-- Sorted insert-or-replace: the effect on the canonical representation of
a Go map of `m[k] = v` (JSON object decoding into a map assigns each pair
in turn, later pairs overwriting earlier ones with the same key). -/
def mapInsert : CookieMap → String → GoCookie → CookieMap
  | [], k, v => [(k, v)]
  | (k', v') :: rest, k, v =>
    if keyLt k k' then (k, v) :: (k', v') :: rest
    else if k = k' then (k, v) :: rest
    else (k', v') :: mapInsert rest k v

/-- Marshalling `c.cookies` with `encoding/json` (auth.go line 220): a Go
map is written as a JSON object whose keys appear in sorted order, which
is exactly the canonical association list itself.  The byte-level JSON
grammar is abstracted to the ordered name/cookie pairs it denotes. -/
def encodeCookies (m : CookieMap) : List (String × GoCookie) := m

/-- Decoding a JSON object into `map[string]*http.Cookie` (auth.go line
233): pairs are assigned left to right into an initially empty map, last
write per key winning. -/
def decodeCookies (l : List (String × GoCookie)) : CookieMap :=
  l.foldl (fun m kv => mapInsert m kv.1 kv.2) []

/-- `auth.Client.loadCookies` (auth.go lines 223-244): a missing file is a
non-error yielding the untouched (empty) cookie map; any other open error
is returned; content that fails JSON decoding is an error; otherwise the
decoded map is installed. -/
def loadCookies : FsRead → Except LoadError CookieMap
  | FsRead.missing => Except.ok []
  | FsRead.openError => Except.error LoadError.ioError
  | FsRead.content FileContent.empty => Except.error LoadError.decodeError
  | FsRead.content (FileContent.encoded l) => Except.ok (decodeCookies l)

/-- The cookie-relevant state of `auth.Client`: the in-memory map
`c.cookies` and the cookie jar installed into the resty transport via
`SetCookies`. -/
structure ClientState where
  cookies : CookieMap
  jar : List GoCookie
  deriving DecidableEq

/-- `auth.NewClient` (auth.go lines 47-60): starts from an empty map, then
calls `c.loadCookies()` *discarding its return value* — the Go constructor
returns only `*Client`, so a failed load leaves the same empty state as a
missing file and no error reaches the caller. -/
def newClientState (f : FsRead) : ClientState :=
  match loadCookies f with
  | Except.ok m => { cookies := m, jar := m.map Prod.snd }
  | Except.error _ => { cookies := [], jar := [] }

/-- Environment outcomes of the two OS calls `saveCookiesToFile` makes
before writing data: `os.Create` and `os.Chmod`. -/
inductive SaveEnv where
  | createFails : SaveEnv
  | chmodFails : SaveEnv
  | allOk : SaveEnv
  deriving DecidableEq

/-- `auth.Client.saveCookiesToFile` (auth.go lines 207-221) acting on the
credential file (`fs` is its prior content, `none` = absent):
`os.Create` truncates/creates the file first; if it fails nothing changed;
`os.Chmod` to 0600 happens next, and on its failure the function returns
*before* any cookie data is written, leaving the file existing but empty;
only then is the map JSON-encoded into the file. -/
def saveCookiesToFile (m : CookieMap) (fs : Option FileContent) :
    SaveEnv → Option FileContent × Except SaveError Unit
  | SaveEnv.createFails => (fs, Except.error SaveError.createError)
  | SaveEnv.chmodFails => (some FileContent.empty, Except.error SaveError.chmodError)
  | SaveEnv.allOk => (some (FileContent.encoded (encodeCookies m)), Except.ok ())

/-- Environment outcome of `os.Remove` when the file exists. -/
inductive RemoveEnv where
  | removeOk : RemoveEnv
  | removeIoError : RemoveEnv
  deriving DecidableEq

/-- `auth.Client.Logout` (auth.go lines 170-179): first unconditionally
replace `c.cookies` with a fresh empty map and clear the transport jar
(`SetCookies(nil)`), then `os.Remove` the credential file, treating
`os.IsNotExist` as success; any other removal error is returned (with the
file left in place). -/
def logout (_st : ClientState) (fs : Option FileContent) (env : RemoveEnv) :
    ClientState × Option FileContent × Except RemoveError Unit :=
  let cleared : ClientState := { cookies := [], jar := [] }
  match fs, env with
  | none, _ => (cleared, none, Except.ok ())
  | some _, RemoveEnv.removeOk => (cleared, none, Except.ok ())
  | some c, RemoveEnv.removeIoError => (cleared, some c, Except.error RemoveError.ioError)

/-- `maxRetries` of `internal/client/client.go`. -/
def maxRetries : Nat := 3

/-- The retry condition installed by `client.New` (client.go lines 30-37):
a response is `none` when the transport-level call itself errored, `some
code` otherwise; retry on transport error, HTTP 429 or any status ≥ 500. -/
def shouldRetry : Option Nat → Bool
  | none => true
  | some code => decide (code = 429 ∨ 500 ≤ code)

/-- Resty's bounded retry loop as configured by `client.New`: attempt
`attempt` is performed (`f attempt` is its outcome); while the retry
condition holds and retry budget remains, the next attempt follows.
Returns the index of the final attempt (= number of retries performed)
and its outcome. -/
def retryLoop (f : Nat → Option Nat) : Nat → Nat → Nat × Option Nat
  | attempt, 0 => (attempt, f attempt)
  | attempt, budget + 1 =>
    if shouldRetry (f attempt) then retryLoop f (attempt + 1) budget
    else (attempt, f attempt)

/-- One request through the resilient transport: up to `maxRetries`
retries after the initial attempt. -/
def executeWithRetry (f : Nat → Option Nat) : Nat × Option Nat :=
  retryLoop f 0 maxRetries

/-- Attempt outcomes "first a 500, then 200": used for the concrete retry
scenario of the spec. -/
def stat500then200 : Nat → Option Nat :=
  fun i => if i = 0 then some 500 else some 200

/-- Attempt outcomes "always 404". -/
def stat404only : Nat → Option Nat :=
  fun _ => some 404

/-- `MaxResolution` of `internal/upload/upload.go`. -/
def MaxResolution : Nat := 2048

/-- `Print1080pWidth` of upload.go. -/
def Print1080pWidth : Nat := 1920

/-- `Print1080pHeight` of upload.go. -/
def Print1080pHeight : Nat := 1080

/-- Dimension computed by disintegration/imaging `Resize` when the
corresponding target is passed as 0 (preserve aspect ratio): the source
cross-axis scaled by `target / srcMain`, rounded to nearest
(`math.Floor(x + 0.5)`), and at least 1 pixel.  In integers,
`floor(target*srcCross/srcMain + 1/2) = (2*target*srcCross + srcMain) / (2*srcMain)`. -/
def aspectDim (target srcCross srcMain : Nat) : Nat :=
  max 1 ((2 * (target * srcCross) + srcMain) / (2 * srcMain))

/-- Dimension behaviour of `upload.resizeImage` (upload.go lines 316-342)
on a decoded image of size `w × h`.  With `noResize = false` the image is
resized to exactly 1920×1080 when `width > height`, else to exactly
1080×1920 (`imaging.Resize` with both targets non-zero uses them as-is).
With `noResize = true`, an image exceeding 2048 on either axis is scaled
so its longer axis is 2048 via `imaging.Resize` with one target 0
(aspect-preserving); otherwise it is returned unchanged.  The inline
resize logic of `prepareImage` in the first version of the file
(upload.go lines 166-192) branches identically. -/
def resizeImage (w h : Nat) (noResize : Bool) : Nat × Nat :=
  if !noResize then
    if w > h then (Print1080pWidth, Print1080pHeight)
    else (Print1080pHeight, Print1080pWidth)
  else
    if w > MaxResolution ∨ h > MaxResolution then
      if w > h then (MaxResolution, aspectDim MaxResolution h w)
      else (aspectDim MaxResolution w h, MaxResolution)
    else (w, h)

/-- Sample cookie used in concrete witnesses. -/
def sampleAuthCookie : GoCookie :=
  { name := "auth", value := "authcookie_value", expires := some 100,
    path := "/", secure := true, httpOnly := true }

/-- Second sample cookie (name sorts after `auth`). -/
def sampleTwoFactorCookie : GoCookie :=
  { name := "twoFactorAuth", value := "tfa_value", expires := none,
    path := "/", secure := true, httpOnly := true }

/-- A canonical two-entry cookie map used in concrete witnesses. -/
def sampleCookieMap : CookieMap :=
  [("auth", sampleAuthCookie), ("twoFactorAuth", sampleTwoFactorCookie)]

/-- Cookie map whose `auth` cookie expires exactly at instant 0. -/
def expiresNowCookieMap : CookieMap :=
  [("auth", { name := "auth", value := "authcookie_value", expires := some 0,
              path := "/", secure := false, httpOnly := false })]

lemma bytesLt_irrefl : ∀ x : List Nat, bytesLt x x = false
  | [] => rfl
  | a :: as => by simp [bytesLt, Nat.lt_irrefl, bytesLt_irrefl as]

lemma bytesLt_asymm : ∀ x y : List Nat, bytesLt x y = true → bytesLt y x = false
  | [], [], h => by simp [bytesLt] at h
  | [], _ :: _, _ => rfl
  | _ :: _, [], h => by simp [bytesLt] at h
  | a :: as, b :: bs, h => by
    by_cases hab : a < b
    · simp [bytesLt, hab, Nat.lt_asymm hab, Nat.ne_of_lt hab]
    · by_cases hba : b < a
      · simp [bytesLt, hab, hba] at h
      · have has : bytesLt as bs = true := by simpa [bytesLt, hab, hba] using h
        simp [bytesLt, hab, hba, bytesLt_asymm as bs has]

lemma keyLt_irrefl (a : String) : keyLt a a = false :=
  bytesLt_irrefl _

lemma keyLt_asymm {a b : String} (h : keyLt a b = true) : keyLt b a = false :=
  bytesLt_asymm _ _ h

lemma keyLt_ne {a b : String} (h : keyLt a b = true) : b ≠ a := by
  intro e
  subst e
  rw [keyLt_irrefl] at h
  exact Bool.false_ne_true h

lemma mapInsert_of_forall_lt : ∀ (acc : CookieMap) (k : String) (v : GoCookie),
    (∀ p ∈ acc, keyLt p.1 k = true) → mapInsert acc k v = acc ++ [(k, v)]
  | [], _, _, _ => rfl
  | (k', v') :: rest, k, v, hall => by
    have hk' : keyLt k' k = true := hall (k', v') (List.mem_cons_self _ _)
    have h1 : keyLt k k' = false := keyLt_asymm hk'
    have h2 : k ≠ k' := keyLt_ne hk'
    simp only [mapInsert, h1, h2]
    simp [mapInsert_of_forall_lt rest k v (fun p hp => hall p (List.mem_cons_of_mem _ hp))]

lemma foldl_mapInsert_of_canonical : ∀ (rest acc : CookieMap),
    cookieMapCanonical (acc ++ rest) →
    rest.foldl (fun m kv => mapInsert m kv.1 kv.2) acc = acc ++ rest
  | [], acc, _ => by simp
  | (k, v) :: t, acc, h => by
    have hall : ∀ p ∈ acc, keyLt p.1 k = true := by
      intro p hp
      exact (List.pairwise_append.mp h).2.2 p hp (k, v) (List.mem_cons_self _ _)
    have hperm : acc ++ (k, v) :: t = (acc ++ [(k, v)]) ++ t := by simp
    have h' : cookieMapCanonical ((acc ++ [(k, v)]) ++ t) := by
      unfold cookieMapCanonical at h ⊢
      rw [hperm] at h
      exact h
    rw [List.foldl_cons, mapInsert_of_forall_lt acc k v hall,
      foldl_mapInsert_of_canonical t (acc ++ [(k, v)]) h']
    simp

lemma retryLoop_fst_le (f : Nat → Option Nat) : ∀ (b a : Nat), (retryLoop f a b).1 ≤ a + b := by
  intro b
  induction b with
  | zero => intro a; simp [retryLoop]
  | succ b ih =>
    intro a
    cases hsr : shouldRetry (f a) with
    | true =>
      have := ih (a + 1)
      simp only [retryLoop, hsr, if_true]
      omega
    | false =>
      simp [retryLoop, hsr]

lemma retryLoop_fst_ge (f : Nat → Option Nat) : ∀ (b a : Nat), a ≤ (retryLoop f a b).1 := by
  intro b
  induction b with
  | zero => intro a; simp [retryLoop]
  | succ b ih =>
    intro a
    cases hsr : shouldRetry (f a) with
    | true =>
      have := ih (a + 1)
      simp only [retryLoop, hsr, if_true]
      omega
    | false =>
      simp [retryLoop, hsr]

lemma retryLoop_snd_eq (f : Nat → Option Nat) :
    ∀ (b a : Nat), (retryLoop f a b).2 = f (retryLoop f a b).1 := by
  intro b
  induction b with
  | zero => intro a; simp [retryLoop]
  | succ b ih =>
    intro a
    cases hsr : shouldRetry (f a) with
    | true =>
      simpa only [retryLoop, hsr, if_true] using ih (a + 1)
    | false =>
      simp [retryLoop, hsr]

lemma retryLoop_stop (f : Nat → Option Nat) {a : Nat} (h : shouldRetry (f a) = false) :
    ∀ b, retryLoop f a b = (a, f a) := by
  intro b
  cases b with
  | zero => rfl
  | succ b => simp [retryLoop, h]

lemma retryLoop_justified (f : Nat → Option Nat) :
    ∀ (b a i : Nat), a ≤ i → i < (retryLoop f a b).1 → shouldRetry (f i) = true := by
  intro b
  induction b with
  | zero =>
    intro a i hai hi
    simp only [retryLoop] at hi
    omega
  | succ b ih =>
    intro a i hai hi
    cases hsr : shouldRetry (f a) with
    | true =>
      by_cases hia : i = a
      · subst hia; exact hsr
      · exact ih (a + 1) i (by omega) (by simpa only [retryLoop, hsr, if_true] using hi)
    | false =>
      rw [retryLoop_stop f hsr] at hi
      omega

lemma retryLoop_progress (f : Nat → Option Nat) :
    ∀ (b a i : Nat), a ≤ i → i < a + b →
      (∀ j, a ≤ j → j ≤ i → shouldRetry (f j) = true) →
      i + 1 ≤ (retryLoop f a b).1 := by
  intro b
  induction b with
  | zero =>
    intro a i hai hib _
    omega
  | succ b ih =>
    intro a i hai hib hall
    have ha : shouldRetry (f a) = true := hall a (Nat.le_refl a) hai
    simp only [retryLoop, ha, if_true]
    by_cases hia : i = a
    · rw [hia]
      exact retryLoop_fst_ge f b (a + 1)
    · exact ih (a + 1) i (by omega) (by omega) (fun j h1 h2 => hall j (by omega) h2)

/-- C1 (counterexample): a decoded 100×100 square has width ≥ height, so
the claim requires output 1920×1080 with `noResize = false`; the code's
branch is the strict `width > height`, so the square falls into the
`else` and is resized to 1080×1920 instead. -/
theorem c1_square_counterexample :
    100 ≥ 100 ∧ resizeImage 100 100 false = (1080, 1920) ∧
      resizeImage 100 100 false ≠ (1920, 1080) := by
  decide

/-- C1 (amended): with `noResize = false`, the pipeline outputs exactly
1920×1080 whenever the source width is strictly greater than its height,
and exactly 1080×1920 whenever the width is less than or equal to the
height (portrait and exact squares). -/
theorem c1_fixed_target_resize (w h : Nat) :
    (h < w → resizeImage w h false = (Print1080pWidth, Print1080pHeight)) ∧
    (w ≤ h → resizeImage w h false = (Print1080pHeight, Print1080pWidth)) := by
  constructor
  · intro hlt
    simp [resizeImage, hlt]
  · intro hle
    simp [resizeImage, Nat.not_lt.mpr hle]

/-- C1 (witness for the amended theorem) at the repository's own test
sizes: 1000×800 lands on 1920×1080 and 800×1200 on 1080×1920. -/
theorem c1_fixed_target_resize_witness :
    resizeImage 1000 800 false = (Print1080pWidth, Print1080pHeight) ∧
    resizeImage 800 1200 false = (Print1080pHeight, Print1080pWidth) :=
  ⟨(c1_fixed_target_resize 1000 800).1 (by decide),
   (c1_fixed_target_resize 800 1200).2 (by decide)⟩

/-- C2: the login Authorization header is exactly `"Basic "` followed by
the standard base64 encoding of `percentEncode(username) + ":" +
percentEncode(password)`, each credential escaped individually with Go's
`url.QueryEscape` before joining; reproduced bit-for-bit on the
repository's own test vectors, and distinct from base64 of the raw
un-escaped credentials. -/
theorem c2_auth_header_encoding :
    (∀ u p : List Nat, createAuthHeader u p =
        asciiBytes "Basic " ++ base64Encode (queryEscape u ++ 58 :: queryEscape p)) ∧
    createAuthHeader (asciiBytes "testuser") (asciiBytes "testpass") =
      asciiBytes "Basic dGVzdHVzZXI6dGVzdHBhc3M=" ∧
    createAuthHeader (asciiBytes "user") (asciiBytes "p@ss w0rd!") =
      asciiBytes "Basic dXNlcjpwJTQwc3MrdzByZCUyMQ==" ∧
    createAuthHeader (asciiBytes "user") (asciiBytes "p@ss w0rd!") ≠
      asciiBytes "Basic " ++ base64Encode (asciiBytes "user:p@ss w0rd!") :=
  ⟨fun _ _ => rfl, by decide, by decide, by decide⟩

/-- C2 (witness): the structural conjunct applied at concrete
credentials. -/
theorem c2_auth_header_encoding_witness :
    createAuthHeader (asciiBytes "testuser") (asciiBytes "testpass") =
      asciiBytes "Basic " ++ base64Encode
        (queryEscape (asciiBytes "testuser") ++ 58 :: queryEscape (asciiBytes "testpass")) :=
  c2_auth_header_encoding.1 (asciiBytes "testuser") (asciiBytes "testpass")

/-- C3 (counterexample): an `auth` cookie with non-empty value whose
expiry equals the current instant is not "strictly in the future", so the
claim requires `false`; `Expires.Before(now)` is a strict comparison, so
the code returns `true`. -/
theorem c3_expiry_now_counterexample :
    isAuthenticated expiresNowCookieMap 0 = true ∧
    isAuthenticatedStrictSpec expiresNowCookieMap 0 = false := by
  decide

/-- C3 (amended): `IsAuthenticated` returns true iff the cookie map holds
an `auth` cookie with non-empty value whose expiry is absent or *not
earlier than* the current instant (an expiry exactly equal to now still
authenticates); in particular it is false when the cookie is absent,
empty, or expired strictly in the past. -/
theorem c3_isAuthenticated_iff (m : CookieMap) (now : Int) :
    isAuthenticated m now = true ↔
      ∃ c, cookieLookup m "auth" = some c ∧ c.value ≠ "" ∧
        (c.expires = none ∨ ∃ e, c.expires = some e ∧ now ≤ e) := by
  unfold isAuthenticated
  cases hc : cookieLookup m "auth" with
  | none => simp
  | some c =>
    by_cases hv : c.value = ""
    · simp [hv]
    · cases he : c.expires with
      | none => simp [hv, he]
      | some e =>
        by_cases hlt : e < now
        · simp [hv, he, hlt]
        · simp [hv, he, hlt]
          omega

/-- C3 (witness for the amended theorem): a non-empty `auth` cookie with
future expiry authenticates. -/
theorem c3_isAuthenticated_iff_witness :
    isAuthenticated sampleCookieMap 50 = true :=
  (c3_isAuthenticated_iff sampleCookieMap 50).mpr
    ⟨sampleAuthCookie, rfl, by decide, Or.inr ⟨100, rfl, by norm_num⟩⟩

/-- C4 (counterexample): a credential file that exists but fails JSON
decoding (here: a zero-length file) makes `loadCookies` return an error,
yet `NewClient` discards that return value — its result is
indistinguishable from the missing-file success case, so the load error
at construction is silently swallowed, contradicting the claim. -/
theorem c4_constructor_swallows_counterexample :
    loadCookies (FsRead.content FileContent.empty) = Except.error LoadError.decodeError ∧
    newClientState (FsRead.content FileContent.empty) = newClientState FsRead.missing :=
  ⟨rfl, rfl⟩

/-- C4 (amended): `loadCookies` itself surfaces read and JSON-decode
errors to its caller and treats only a missing file as a non-error (empty
set); `NewClient`, however, ignores the value `loadCookies` returns, so
at Session Client construction any load failure yields an empty client
state and no error reaches the caller. -/
theorem c4_load_error_surfacing :
    loadCookies FsRead.missing = Except.ok [] ∧
    loadCookies FsRead.openError = Except.error LoadError.ioError ∧
    loadCookies (FsRead.content FileContent.empty) = Except.error LoadError.decodeError ∧
    (∀ l, loadCookies (FsRead.content (FileContent.encoded l)) = Except.ok (decodeCookies l)) ∧
    (∀ f e, loadCookies f = Except.error e →
      newClientState f = { cookies := [], jar := [] }) := by
  refine ⟨rfl, rfl, rfl, fun l => rfl, fun f e hf => ?_⟩
  unfold newClientState
  rw [hf]

/-- C4 (witness for the amended theorem): the unreadable-file error is
dropped by construction, leaving the empty state. -/
theorem c4_load_error_surfacing_witness :
    newClientState FsRead.openError = { cookies := [], jar := [] } :=
  c4_load_error_surfacing.2.2.2.2 FsRead.openError LoadError.ioError rfl

/-- C5: the resilient transport retries exactly when the attempt errored
at transport level or returned 429 or ≥500, never beyond `maxRetries`; a
non-retryable first outcome is returned immediately with zero retries;
every performed retry was triggered by the predicate, and while the
predicate keeps firing with budget left the next attempt does happen; in
particular 500-then-200 gives exactly one retry with overall success,
and 404 gives zero retries and an immediate return. -/
theorem c5_retry_policy :
    (∀ f, (executeWithRetry f).1 ≤ maxRetries) ∧
    (∀ f, (executeWithRetry f).2 = f (executeWithRetry f).1) ∧
    (∀ f, shouldRetry (f 0) = false → executeWithRetry f = (0, f 0)) ∧
    (∀ f i, i < (executeWithRetry f).1 → shouldRetry (f i) = true) ∧
    (∀ f i, i < maxRetries → (∀ j, j ≤ i → shouldRetry (f j) = true) →
      i + 1 ≤ (executeWithRetry f).1) ∧
    executeWithRetry stat500then200 = (1, some 200) ∧
    executeWithRetry stat404only = (0, some 404) := by
  refine ⟨fun f => ?_, fun f => retryLoop_snd_eq f maxRetries 0,
    fun f h => retryLoop_stop f h maxRetries,
    fun f i hi => retryLoop_justified f maxRetries 0 i (Nat.zero_le i) hi,
    fun f i hi hall => ?_, by decide, by decide⟩
  · have := retryLoop_fst_le f maxRetries 0
    simpa [executeWithRetry] using this
  · exact retryLoop_progress f maxRetries 0 i (Nat.zero_le i) (by omega)
      (fun j _ hj => hall j hj)

/-- C5 (witness): the no-retry conjunct applied to the constant-404
transport. -/
theorem c5_retry_policy_witness :
    executeWithRetry stat404only = (0, stat404only 0) :=
  c5_retry_policy.2.2.1 stat404only (by decide)

/-- C6: a cookie set written by `saveCookiesToFile` (JSON object with the
map's entries) is reconstructed as an equal cookie set by a subsequent
`loadCookies` of that file (round-trip law), for every canonical map. -/
theorem c6_save_load_roundtrip (m : CookieMap) (hm : cookieMapCanonical m)
    (fs : Option FileContent) :
    saveCookiesToFile m fs SaveEnv.allOk =
      (some (FileContent.encoded (encodeCookies m)), Except.ok ()) ∧
    loadCookies (FsRead.content (FileContent.encoded (encodeCookies m))) =
      Except.ok m := by
  refine ⟨rfl, ?_⟩
  have hdec : decodeCookies (encodeCookies m) = m := by
    unfold decodeCookies encodeCookies
    simpa using foldl_mapInsert_of_canonical m [] (by simpa using hm)
  simp [loadCookies, hdec]

/-- C6 (witness): round trip of a concrete two-cookie credential set. -/
theorem c6_save_load_roundtrip_witness :
    saveCookiesToFile sampleCookieMap none SaveEnv.allOk =
      (some (FileContent.encoded (encodeCookies sampleCookieMap)), Except.ok ()) ∧
    loadCookies (FsRead.content (FileContent.encoded (encodeCookies sampleCookieMap))) =
      Except.ok sampleCookieMap :=
  c6_save_load_roundtrip sampleCookieMap (by decide) none

/-- C8: whenever `Logout` returns success, the in-memory session is gone
(`IsAuthenticated` is false at every instant) and the credential file is
absent; and an already-absent file always yields success, not an error. -/
theorem c8_logout_success_state (st : ClientState) (fs : Option FileContent)
    (env : RemoveEnv) (now : Int) :
    ((logout st fs env).2.2 = Except.ok () →
      isAuthenticated (logout st fs env).1.cookies now = false ∧
        (logout st fs env).2.1 = none) ∧
    (logout st none env).2.2 = Except.ok () := by
  constructor
  · intro hok
    cases fs with
    | none => exact ⟨rfl, rfl⟩
    | some c =>
      cases env with
      | removeOk => exact ⟨rfl, rfl⟩
      | removeIoError => simp [logout] at hok
  · rfl

/-- C8 (witness): logging out with an existing credential file and a
populated session succeeds and clears both. -/
theorem c8_logout_success_state_witness :
    isAuthenticated (logout { cookies := sampleCookieMap, jar := [sampleAuthCookie] }
      (some (FileContent.encoded sampleCookieMap)) RemoveEnv.removeOk).1.cookies 0 = false ∧
    (logout { cookies := sampleCookieMap, jar := [sampleAuthCookie] }
      (some (FileContent.encoded sampleCookieMap)) RemoveEnv.removeOk).2.1 = none :=
  (c8_logout_success_state _ _ _ 0).1 rfl

/-- C9: `Logout` empties the in-memory cookie map and the transport jar
before touching the credential file, so `IsAuthenticated` is false after
logout in every environment — including the one where deleting the file
fails with an I/O error and `Logout` returns that error. -/
theorem c9_logout_always_clears_memory (st : ClientState) (fs : Option FileContent)
    (env : RemoveEnv) (now : Int) :
    isAuthenticated (logout st fs env).1.cookies now = false ∧
    (logout st fs env).1.jar = [] ∧
    (∀ c, fs = some c → env = RemoveEnv.removeIoError →
      (logout st fs env).2.2 = Except.error RemoveError.ioError) := by
  refine ⟨?_, ?_, ?_⟩
  · cases fs <;> cases env <;> rfl
  · cases fs <;> cases env <;> rfl
  · intro c hfs henv
    subst hfs
    subst henv
    rfl

/-- C9 (witness): a failed file deletion still leaves the session
unauthenticated. -/
theorem c9_logout_always_clears_memory_witness :
    isAuthenticated (logout { cookies := sampleCookieMap, jar := [sampleAuthCookie] }
      (some FileContent.empty) RemoveEnv.removeIoError).1.cookies 0 = false ∧
    (logout { cookies := sampleCookieMap, jar := [sampleAuthCookie] }
      (some FileContent.empty) RemoveEnv.removeIoError).2.2 =
        Except.error RemoveError.ioError :=
  ⟨(c9_logout_always_clears_memory _ _ _ 0).1,
   (c9_logout_always_clears_memory
      { cookies := sampleCookieMap, jar := [sampleAuthCookie] }
      (some FileContent.empty) RemoveEnv.removeIoError 0).2.2
     FileContent.empty rfl rfl⟩

/-- C10: `saveCookiesToFile` truncates via `os.Create` before `os.Chmod`;
when setting permissions fails it returns that error with no cookie data
written, so the credential file is left existing but empty — a
pre-existing non-empty file's contents are lost, i.e. the prior state is
not preserved on this error path. -/
theorem c10_chmod_failure_truncates (m : CookieMap) (fs : Option FileContent) :
    saveCookiesToFile m fs SaveEnv.chmodFails =
      (some FileContent.empty, Except.error SaveError.chmodError) ∧
    (∀ l, (saveCookiesToFile m fs SaveEnv.chmodFails).1 ≠
      some (FileContent.encoded l)) ∧
    (∀ prior, prior ≠ FileContent.empty → fs = some prior →
      (saveCookiesToFile m fs SaveEnv.chmodFails).1 ≠ some prior) := by
  refine ⟨rfl, ?_, ?_⟩
  · intro l h
    simp [saveCookiesToFile] at h
  · intro prior hne hfs h
    simp [saveCookiesToFile] at h
    exact hne h.symm

/-- C10 (witness): a previously saved non-empty credential file is
truncated to empty on the chmod-failure path. -/
theorem c10_chmod_failure_truncates_witness :
    saveCookiesToFile sampleCookieMap (some (FileContent.encoded sampleCookieMap))
        SaveEnv.chmodFails =
      (some FileContent.empty, Except.error SaveError.chmodError) ∧
    (saveCookiesToFile sampleCookieMap (some (FileContent.encoded sampleCookieMap))
        SaveEnv.chmodFails).1 ≠ some (FileContent.encoded sampleCookieMap) :=
  ⟨(c10_chmod_failure_truncates _ _).1,
   (c10_chmod_failure_truncates sampleCookieMap
      (some (FileContent.encoded sampleCookieMap))).2.1 sampleCookieMap⟩

lemma aspectDim_le (t s l : Nat) (hsl : s ≤ l) (hl : 1 ≤ l) (ht : 1 ≤ t) :
    aspectDim t s l ≤ t := by
  unfold aspectDim
  have hlpos : 0 < 2 * l := by omega
  have hlt : (2 * (t * s) + l) / (2 * l) < t + 1 := by
    rw [Nat.div_lt_iff_lt_mul hlpos]
    have hts : t * s ≤ t * l := Nat.mul_le_mul_left t hsl
    have hexp : (t + 1) * (2 * l) = 2 * (t * l) + 2 * l := by ring
    rw [hexp]
    linarith
  exact max_le ht (Nat.lt_succ_iff.mp hlt)

lemma aspectDim_round (t s l : Nat) (hl : 1 ≤ l) (hclamp : l ≤ 2 * (t * s)) :
    2 * Nat.dist (t * s) (aspectDim t s l * l) ≤ l := by
  unfold aspectDim
  have hlpos : 0 < 2 * l := by omega
  set q := (2 * (t * s) + l) / (2 * l) with hq
  have h1 : 2 * l * q + (2 * (t * s) + l) % (2 * l) = 2 * (t * s) + l := by
    rw [hq]
    exact Nat.div_add_mod _ _
  have h2 : (2 * (t * s) + l) % (2 * l) < 2 * l := Nat.mod_lt _ hlpos
  have hq1 : 1 ≤ q := by
    rw [hq, Nat.le_div_iff_mul_le hlpos]
    linarith
  rw [Nat.max_eq_right hq1]
  have h3 : 2 * (q * l) + (2 * (t * s) + l) % (2 * l) = 2 * (t * s) + l := by
    rw [show 2 * (q * l) = 2 * l * q from by ring]
    exact h1
  simp only [Nat.dist]
  generalize t * s = a at h2 h3 ⊢
  generalize q * l = b at h3 ⊢
  generalize (2 * a + l) % (2 * l) = r at h2 h3
  omega

/-- C7: with `noResize = true`, an image exceeding 2048 on either axis is
scaled so both output axes are ≤ 2048, the longer output axis is exactly
2048, and — whenever the aspect ratio is at most 4096:1, so the 1-pixel
floor of `imaging.Resize` is not hit — the aspect ratio is preserved up to
the half-pixel rounding of the scaled axis (the cross products of the
dimensions differ by at most half the longer source axis). -/
theorem c7_oversize_clamp (w h : Nat) (hw : 1 ≤ w) (hh : 1 ≤ h)
    (hbig : MaxResolution < w ∨ MaxResolution < h) :
    (resizeImage w h true).1 ≤ MaxResolution ∧
    (resizeImage w h true).2 ≤ MaxResolution ∧
    max (resizeImage w h true).1 (resizeImage w h true).2 = MaxResolution ∧
    (max w h ≤ 4096 * min w h →
      2 * Nat.dist ((resizeImage w h true).1 * h) ((resizeImage w h true).2 * w) ≤
        max w h) := by
  have hres : resizeImage w h true =
      if h < w then (MaxResolution, aspectDim MaxResolution h w)
      else (aspectDim MaxResolution w h, MaxResolution) := by
    simp [resizeImage, hbig]
  rw [hres]
  have hM : (1 : Nat) ≤ MaxResolution := by simp [MaxResolution]
  by_cases hlt : h < w
  · rw [if_pos hlt]
    dsimp only
    have hle2 : aspectDim MaxResolution h w ≤ MaxResolution :=
      aspectDim_le MaxResolution h w (Nat.le_of_lt hlt) (by omega) hM
    refine ⟨Nat.le_refl _, hle2, Nat.max_eq_left hle2, ?_⟩
    intro hasp
    have hclamp : w ≤ 2 * (MaxResolution * h) := by
      simp only [MaxResolution]
      omega
    have hbound := aspectDim_round MaxResolution h w (by omega) hclamp
    exact le_trans hbound (le_max_left w h)
  · rw [if_neg hlt]
    dsimp only
    have hwh : w ≤ h := Nat.not_lt.mp hlt
    have hle1 : aspectDim MaxResolution w h ≤ MaxResolution :=
      aspectDim_le MaxResolution w h hwh (by omega) hM
    refine ⟨hle1, Nat.le_refl _, Nat.max_eq_right hle1, ?_⟩
    intro hasp
    have hclamp : h ≤ 2 * (MaxResolution * w) := by
      simp only [MaxResolution]
      omega
    have hbound := aspectDim_round MaxResolution w h (by omega) hclamp
    rw [Nat.dist_comm]
    exact le_trans hbound (le_max_right w h)

/-- C7 (witness): a 3000×4000 source with `noResize = true` yields
1536×2048 — both axes ≤ 2048, longer axis exactly 2048, aspect ratio 3:4
preserved exactly. -/
theorem c7_oversize_clamp_witness :
    ((resizeImage 3000 4000 true).1 ≤ MaxResolution ∧
      (resizeImage 3000 4000 true).2 ≤ MaxResolution ∧
      max (resizeImage 3000 4000 true).1 (resizeImage 3000 4000 true).2 = MaxResolution ∧
      (max 3000 4000 ≤ 4096 * min 3000 4000 →
        2 * Nat.dist ((resizeImage 3000 4000 true).1 * 4000)
          ((resizeImage 3000 4000 true).2 * 3000) ≤ max 3000 4000)) ∧
    resizeImage 3000 4000 true = (1536, 2048) :=
  ⟨c7_oversize_clamp 3000 4000 (by norm_num) (by norm_num)
      (Or.inr (by norm_num [MaxResolution])), by decide⟩
